import Mathlib

/-!
Verification of the CustQR QR-code customization tool.

The definitions below are a shallow embedding of the validation, color
contrast, upload, export and debounce logic of
`src/components/QRGenerator.tsx` and `public/js/script.js`.
JavaScript numbers are modelled as `ℝ` (for the luminance/contrast
computations) and `ℤ`/`ℕ` (for integral quantities); strings are Lean
`String`s, with the list of characters as underlying data.
-/

namespace CustQR

/-! ## Strings and whitespace

`isWSb` models the whitespace class used by JavaScript `String.prototype.trim`
and the leading-whitespace skipping of `parseInt`. -/

def isWSb (c : Char) : Bool := c.isWhitespace

/-- Remove trailing whitespace (the second half of `trim`). -/
def dropTrailWS (l : List Char) : List Char := (l.reverse.dropWhile isWSb).reverse

/-- `String.prototype.trim` on the character list. -/
def trimList (l : List Char) : List Char := dropTrailWS (l.dropWhile isWSb)

/-- `String.prototype.trim`. -/
def trimStr (s : String) : String := ⟨trimList s.data⟩

/-- `startsW p l` models `l.startsWith(p)` for JS strings. -/
def startsW : List Char → List Char → Bool
  | [], _ => true
  | _ :: _, [] => false
  | p :: ps, c :: cs => p == c && startsW ps cs

/-! ## sanitizeUrl (QRGenerator.tsx lines 195-201, script.js lines 198-204)

```js
const sanitizeUrl = (input) => {
  const trimmed = input.trim();
  if (!trimmed.startsWith('http://') && !trimmed.startsWith('https://')) {
    return `https://${trimmed}`;
  }
  return trimmed;
};
``` -/

def sanitizeList (l : List Char) : List Char :=
  if startsW "http://".data (trimList l) || startsW "https://".data (trimList l) then
    trimList l
  else
    "https://".data ++ trimList l

def sanitizeUrl (s : String) : String := ⟨sanitizeList s.data⟩

/-! ## Hex color validation (QRGenerator.tsx lines 93-101)

The regex is `^#([A-Fa-f0-9]{6}|[A-Fa-f0-9]{3})$`; the function first rejects
the empty string with a dedicated message. -/

def isHexDigit (c : Char) : Bool :=
  decide ((48 ≤ c.toNat ∧ c.toNat ≤ 57) ∨ (97 ≤ c.toNat ∧ c.toNat ≤ 102) ∨
    (65 ≤ c.toNat ∧ c.toNat ≤ 70))

/-- `hexPattern.test(color)` for `^#([A-Fa-f0-9]{6}|[A-Fa-f0-9]{3})$`. -/
def hexPatternTest (s : String) : Bool :=
  match s.data with
  | c :: rest => c == '#' && (rest.length == 6 || rest.length == 3) && rest.all isHexDigit
  | [] => false

/-- Error value of `validateHexColor`. -/
def hexErrorMsg (color : String) : Option String :=
  if color = "" then some "Color is required"
  else if hexPatternTest color then none
  else some "Invalid hex color format (use #RRGGBB or #RGB)"

/-- Acceptance predicate of `validateHexColor` (its `isValid` field). -/
def validateHexColor (color : String) : Bool := (hexErrorMsg color).isNone

/-! ## calculateLuminance (QRGenerator.tsx lines 103-115)

```js
const rgb = parseInt(hex.slice(1), 16);
const r = (rgb >> 16) & 0xff;
const g = (rgb >> 8) & 0xff;
const b = (rgb >> 0) & 0xff;
const [rs, gs, bs] = [r, g, b].map(c => {
  c = c / 255;
  return c <= 0.03928 ? c / 12.92 : Math.pow((c + 0.055) / 1.055, 2.4);
});
return 0.2126 * rs + 0.7152 * gs + 0.0722 * bs;
```
For the strings accepted by `validateHexColor` the argument of `parseInt`
consists solely of hex digits, so `parseInt` reads all of them. -/

/-- Numeric value of one hex digit, exactly as `parseInt(_, 16)` assigns it. -/
def hexDigitVal (c : Char) : ℕ :=
  if 48 ≤ c.toNat ∧ c.toNat ≤ 57 then c.toNat - 48
  else if 97 ≤ c.toNat ∧ c.toNat ≤ 102 then c.toNat - 87
  else if 65 ≤ c.toNat ∧ c.toNat ≤ 70 then c.toNat - 55
  else 0

/-- `parseInt(chars, 16)` on an all-hex-digit character list. -/
def hexToNat (l : List Char) : ℕ := l.foldl (fun acc c => 16 * acc + hexDigitVal c) 0

/-- The `(r, g, b)` triple extracted by `calculateLuminance`:
`parseInt(hex.slice(1), 16)` followed by shift-and-mask byte extraction. -/
def hexChannels (s : String) : ℕ × ℕ × ℕ :=
  (hexToNat (s.data.drop 1) / 65536 % 256,
   hexToNat (s.data.drop 1) / 256 % 256,
   hexToNat (s.data.drop 1) % 256)

/-- The sRGB-to-linear gamma correction applied to one normalized channel. -/
noncomputable def srgbToLinear (c : ℝ) : ℝ :=
  if c ≤ 0.03928 then c / 12.92 else ((c + 0.055) / 1.055) ^ (2.4 : ℝ)

/-- Luminance combination of three 8-bit channels. -/
noncomputable def luminanceOfChannels (r g b : ℕ) : ℝ :=
  0.2126 * srgbToLinear ((r : ℝ) / 255) + 0.7152 * srgbToLinear ((g : ℝ) / 255) +
    0.0722 * srgbToLinear ((b : ℝ) / 255)

/-- `calculateLuminance` from the source. -/
noncomputable def calculateLuminance (s : String) : ℝ :=
  luminanceOfChannels (hexChannels s).1 (hexChannels s).2.1 (hexChannels s).2.2

/-- Reference channel decode following the spec's words: a hex color denotes
8-bit channels, a 6-digit color by its three digit pairs and a 3-digit color by
duplicating each digit (CSS shorthand), as assumed by the WCAG relative
luminance definition the spec cites. -/
def wcagChannels (s : String) : ℕ × ℕ × ℕ :=
  match s.data with
  | ['#', r1, r2, g1, g2, b1, b2] =>
      (16 * hexDigitVal r1 + hexDigitVal r2,
       16 * hexDigitVal g1 + hexDigitVal g2,
       16 * hexDigitVal b1 + hexDigitVal b2)
  | ['#', r, g, b] =>
      (17 * hexDigitVal r, 17 * hexDigitVal g, 17 * hexDigitVal b)
  | _ => (0, 0, 0)

/-- Reference WCAG relative luminance, per the spec's formula: decode to
channels in `[0,255]`, normalize, gamma-correct, combine with the
`0.2126/0.7152/0.0722` weights. -/
noncomputable def wcagRelativeLuminance (s : String) : ℝ :=
  luminanceOfChannels (wcagChannels s).1 (wcagChannels s).2.1 (wcagChannels s).2.2

/-! ## validateColorContrast (QRGenerator.tsx lines 117-140) -/

/-- Contrast ratio as computed at lines 128-131:
`(max(darkLum, lightLum) + 0.05) / (min(darkLum, lightLum) + 0.05)`. -/
noncomputable def contrastRatioOf (darkColor lightColor : String) : ℝ :=
  (max (calculateLuminance darkColor) (calculateLuminance lightColor) + 0.05) /
    (min (calculateLuminance darkColor) (calculateLuminance lightColor) + 0.05)

structure ColorValidationResult where
  isValid : Bool
  error : Option String
  warning : Option String
  contrastRatio : Option ℝ
  scannable : Option Bool

noncomputable def validateColorContrast (darkColor lightColor : String) :
    ColorValidationResult :=
  if validateHexColor darkColor && validateHexColor lightColor then
    if 3 ≤ contrastRatioOf darkColor lightColor then
      ⟨true, none, none, some (contrastRatioOf darkColor lightColor), some true⟩
    else
      ⟨true, none, some "Low contrast may affect QR code scannability",
        some (contrastRatioOf darkColor lightColor), some false⟩
  else
    ⟨false, (hexErrorMsg darkColor).or (hexErrorMsg lightColor), none, none, none⟩

/-! ## validateNumericInput (QRGenerator.tsx lines 142-162) -/

structure NumericValidation where
  isValid : Bool
  error : Option String
  parsedValue : ℤ
deriving DecidableEq

/-- Leading decimal digits of a character list. -/
def leadingDigits (l : List Char) : List Char := l.takeWhile Char.isDigit

/-- Value of a decimal digit string. -/
def digitsToNat (l : List Char) : ℕ := l.foldl (fun acc c => 10 * acc + (c.toNat - 48)) 0

/-- `parseInt(s, 10)`: skip leading whitespace, optional sign, then the longest
run of decimal digits; `none` models `NaN` (no digit found). -/
def parseIntTen (s : String) : Option ℤ :=
  match s.data.dropWhile isWSb with
  | '-' :: rest =>
      if leadingDigits rest = [] then none else some (-(digitsToNat (leadingDigits rest) : ℤ))
  | '+' :: rest =>
      if leadingDigits rest = [] then none else some ((digitsToNat (leadingDigits rest) : ℤ))
  | rest =>
      if leadingDigits rest = [] then none else some ((digitsToNat (leadingDigits rest) : ℤ))

def validateNumericInput (value : String) (mn mx defaultValue : ℤ) : NumericValidation :=
  if trimStr value = "" then ⟨true, none, defaultValue⟩
  else
    match parseIntTen value with
    | none => ⟨false, some "Must be a valid number", defaultValue⟩
    | some n =>
        if n < mn ∨ mx < n then
          ⟨false, some ("Value must be between " ++ toString mn ++ " and " ++ toString mx),
            max mn (min mx n)⟩
        else ⟨true, none, n⟩

/-! ## validateFileUpload (QRGenerator.tsx lines 164-177) -/

structure ValidationResult where
  isValid : Bool
  error : Option String
deriving DecidableEq

structure UploadFile where
  name : String
  type : String
  size : ℕ
deriving DecidableEq

def allowedImageTypes : List String :=
  ["image/jpeg", "image/jpg", "image/png", "image/gif", "image/webp"]

def validateFileUpload (file : UploadFile) : ValidationResult :=
  if file.size > 2 * 1024 * 1024 then ⟨false, some "File size must be under 2MB"⟩
  else if allowedImageTypes.contains file.type = false then
    ⟨false, some "File must be an image (JPEG, PNG, GIF, or WebP)"⟩
  else ⟨true, none⟩

/-- `endsW suf l`: does `l` end with `suf`? (Models the anchored-at-end
regular expression tests of the enterprise file-name denylist.) -/
def endsW (suf l : List Char) : Bool := startsW suf.reverse l.reverse

/-! ## handleLogoUpload (QRGenerator.tsx lines 324-390)

After `validateFileUpload`, the handler decodes the image, rejects dimensions
below 16 or above 2048 on either axis, and on success stores
`FileReader.readAsDataURL(file)` — the original file bytes re-encoded as a data
URL. No canvas resampling of any kind occurs, so an accepted logo keeps the
source pixel dimensions; `some img` returns the upload unchanged. -/

structure ImageUpload where
  file : UploadFile
  width : ℕ
  height : ℕ
deriving DecidableEq

def handleLogoUpload (img : ImageUpload) : Option ImageUpload :=
  if (validateFileUpload img.file).isValid = false then none
  else if img.width < 16 ∨ img.height < 16 then none
  else if img.width > 2048 ∨ img.height > 2048 then none
  else some img

/-! ## downloadQR (QRGenerator.tsx lines 392-444)

The three export branches: `png` and `pdf` rasterize the preview DOM node with
`html2canvas` (which snapshots the logo overlay when present); `svg` calls
`QRCode.toString(sanitizeUrl(url), {...options, type: 'svg'})`, the encoder's
native vector output, touching neither the preview DOM nor the logo. -/

inductive ECLevel
  | L
  | M
  | Q
  | H
deriving DecidableEq

structure QROptions where
  errorCorrectionLevel : ECLevel
  width : ℕ
  margin : ℕ
  dark : String
  light : String
deriving DecidableEq

structure AppState where
  url : String
  qrDataUrl : String
  logo : Option String
  options : QROptions
deriving DecidableEq

inductive ExportFormat
  | png
  | svg
  | pdf
deriving DecidableEq

inductive ExportArtifact where
  | pngCanvas (background : String) (scale : ℕ) (filename : String)
  | svgNative (text : String) (options : QROptions) (filename : String)
  | pdfCanvas (background : String) (scale : ℕ) (filename : String)
deriving DecidableEq

def downloadQR (format : ExportFormat) (st : AppState) : Option ExportArtifact :=
  if st.qrDataUrl = "" then none
  else
    match format with
    | .png => some (.pngCanvas st.options.light 2 "custqr-code.png")
    | .svg => some (.svgNative (sanitizeUrl st.url) st.options "custqr-code.svg")
    | .pdf => some (.pdfCanvas st.options.light 2 "custqr-code.pdf")

/-- An artifact produced by the raster compositing path (`html2canvas` snapshot
of the preview, logo overlay included). The `svgNative` branch is the
encoder's own vector output and composites nothing. -/
def isRasterComposite : ExportArtifact → Bool
  | .pngCanvas _ _ _ => true
  | .pdfCanvas _ _ _ => true
  | .svgNative _ _ _ => false

/-! ## Debounced regeneration (QRGenerator.tsx lines 287-306)

Each run of the structural-options effect clears the pending
`colorDebounceTimer` (if any) and schedules a fresh 300 ms timeout whose
callback regenerates the QR with the options of the scheduling render. The
event model: a time-ordered list of `(time, width)` changes is processed
against the pending timer `(fireTime, width)`; a change whose time is at or
past the pending fire time lets the timer fire first, otherwise the pending
timer is cancelled and replaced. Remaining pending work fires at the end. -/

def debounceRun (d : ℕ) : List (ℕ × ℕ) → Option (ℕ × ℕ) → List ℕ
  | [], none => []
  | [], some (_, w) => [w]
  | (t, w) :: rest, none => debounceRun d rest (some (t + d, w))
  | (t, w) :: rest, some (ft, pw) =>
      if ft ≤ t then pw :: debounceRun d rest (some (t + d, w))
      else debounceRun d rest (some (t + d, w))

/-! ## The enterprise React implementation (second staged document of Logo.tsx)

Logo.tsx stages a second, complete QRGenerator implementation — the
enterprise variant the spec describes. Its upload validation
(Logo.tsx lines 266-327), image optimization (lines 330-381), logo upload
handler (lines 533-628) and download pipeline (lines 803-875, 1047-1135)
differ from the baseline `QRGenerator.tsx` versions modelled above and are
embedded here under the `Enterprise` namespace. -/

namespace Enterprise

def allowedImageTypes : List String :=
  ["image/jpeg", "image/jpg", "image/png", "image/gif",
   "image/webp", "image/svg+xml", "image/avif", "image/bmp"]

def allowedExtensions : List String :=
  [".jpg", ".jpeg", ".png", ".gif", ".webp", ".svg", ".avif", ".bmp"]

/-- ASCII lowercasing of one character, as `toLowerCase` acts on the ASCII
file names used here (it preserves the string's length and dot positions). -/
def lowerChar (c : Char) : Char :=
  if 65 ≤ c.toNat ∧ c.toNat ≤ 90 then Char.ofNat (c.toNat + 32) else c

/-- `name.substring(name.lastIndexOf('.'))`: the suffix starting at the last
dot; when no dot exists `lastIndexOf` is -1 and `substring` clamps it to 0,
returning the whole string. -/
def extSuffix (l : List Char) : List Char :=
  if l.contains '.' then '.' :: (l.reverse.takeWhile (fun c => !(c == '.'))).reverse else l

/-- `file.name.toLowerCase().substring(file.name.lastIndexOf('.'))`. -/
def fileExtensionOf (name : String) : String := ⟨extSuffix (name.data.map lowerChar)⟩

/-- One character of the control/dangerous-symbol character class. -/
def isDangerousChar (c : Char) : Bool :=
  c == '<' || c == '>' || c == ':' || c == '"' || c == '|' || c == '?' || c == '*' ||
    decide (c.toNat ≤ 31) || decide (128 ≤ c.toNat ∧ c.toNat ≤ 159)

/-- The dots-only pattern. -/
def onlyDots (name : String) : Bool := !name.data.isEmpty && name.data.all (· == '.')

def reservedDeviceNames : List String :=
  ["con", "prn", "aux", "nul",
   "com1", "com2", "com3", "com4", "com5", "com6", "com7", "com8", "com9",
   "lpt1", "lpt2", "lpt3", "lpt4", "lpt5", "lpt6", "lpt7", "lpt8", "lpt9"]

/-- Case-insensitive whole-name match against the Windows reserved names. -/
def isReservedDeviceName (name : String) : Bool :=
  reservedDeviceNames.contains ⟨name.data.map lowerChar⟩

def executableExtensions : List String :=
  [".bat", ".cmd", ".exe", ".scr", ".com", ".pif", ".vbs", ".js", ".jar",
   ".app", ".deb", ".dmg", ".pkg", ".rpm"]

/-- Case-insensitive match of the executable-extension denylist at the end of
the file name. -/
def hasExecutableExtension (name : String) : Bool :=
  executableExtensions.any (fun e => endsW e.data (name.data.map lowerChar))

/-- `dangerousPatterns.some(pattern => pattern.test(file.name))`. -/
def dangerousNamePattern (name : String) : Bool :=
  name.data.any isDangerousChar || onlyDots name || isReservedDeviceName name ||
    hasExecutableExtension name

/-- Enterprise `validateFileUpload` (Logo.tsx lines 266-327): tiered size
limits, extended MIME allow-list, extension allow-list, name length cap and
the dangerous-name denylist, in source order. -/
def validateFileUpload (file : UploadFile) : ValidationResult :=
  if file.size > 5 * 1024 * 1024 then ⟨false, some "File size must be under 5MB"⟩
  else if file.size < 100 then ⟨false, some "File appears to be empty or corrupted"⟩
  else if allowedImageTypes.contains file.type = false then
    ⟨false, some "File must be a valid image format (JPEG, PNG, GIF, WebP, SVG, AVIF, or BMP)"⟩
  else if allowedExtensions.contains (fileExtensionOf file.name) = false then
    ⟨false, some "File extension does not match allowed image formats"⟩
  else if file.name.length > 255 then
    ⟨false, some "File name is too long (maximum 255 characters)"⟩
  else if dangerousNamePattern file.name then
    ⟨false, some "File name contains unsafe characters or patterns"⟩
  else ⟨true, none⟩

/-- Dimension logic of enterprise `optimizeImage` (Logo.tsx lines 341-362):
when either side exceeds `maxDimension = 512`, scale both sides by
`Math.min(512/width, 512/height)` and round, then draw at the new size with
high-quality smoothing; otherwise keep the original size. JS numbers are
modelled as `ℚ` and `Math.round` as round-half-up. -/
def optimizeDims (w h : ℕ) : ℕ × ℕ :=
  if w > 512 ∨ h > 512 then
    ((round ((w : ℚ) * min (512 / (w : ℚ)) (512 / (h : ℚ)))).toNat,
     (round ((h : ℚ) * min (512 / (w : ℚ)) (512 / (h : ℚ)))).toNat)
  else (w, h)

/-- Enterprise `handleLogoUpload` (Logo.tsx lines 533-628): validate the
file, check decoded dimensions against the 32..4096 bounds, then store the
data URL produced by `optimizeImage`; the result is abstracted to the stored
logo's pixel dimensions. -/
def handleLogoUpload (img : ImageUpload) : Option (ℕ × ℕ) :=
  if (validateFileUpload img.file).isValid = false then none
  else if img.width < 32 ∨ img.height < 32 then none
  else if img.width > 4096 ∨ img.height > 4096 then none
  else some (optimizeDims img.width img.height)

/-- A canvas produced by `QRCode.toCanvas` with the user's true colors,
after `addLogoToCanvas` drew the logo (a no-op when no logo is set). -/
structure CompositeCanvas where
  text : String
  options : QROptions
  logo : Option String
deriving DecidableEq

/-- The two shapes of the enterprise SVG export (Logo.tsx lines 806-875):
with a logo, the composited canvas is encoded as a PNG data URL and embedded
as the sole image of a minimal SVG document whose declared width, height and
viewBox side all equal `options.width` (`declaredSize` here); without a logo,
the encoder's native vector output is returned. -/
inductive SvgExport where
  | rasterWrapped (composite : CompositeCanvas) (declaredSize : ℕ)
  | nativeVector (text : String) (options : QROptions)
deriving DecidableEq

def SvgExport.isNativeVector : SvgExport → Bool
  | .rasterWrapped _ _ => false
  | .nativeVector _ _ => true

/-- Enterprise `generateDownloadQR('svg')` (Logo.tsx lines 806-875). -/
def generateDownloadQRSvg (st : AppState) : SvgExport :=
  match st.logo with
  | some l => .rasterWrapped ⟨sanitizeUrl st.url, st.options, some l⟩ st.options.width
  | none => .nativeVector (sanitizeUrl st.url) st.options

inductive ExportArtifact where
  | pngComposite (composite : CompositeCanvas) (scale : ℕ) (filename : String)
  | svgDoc (svg : SvgExport) (filename : String)
  | pdfComposite (composite : CompositeCanvas) (scale : ℕ) (filename : String)
deriving DecidableEq

/-- Enterprise `downloadQR` (Logo.tsx lines 1047-1135): the png/pdf branches
composite QR and logo on a 2x canvas; the svg branch delegates to
`generateDownloadQR('svg')`. -/
def downloadQR (format : ExportFormat) (st : AppState) : Option ExportArtifact :=
  if st.qrDataUrl = "" then none
  else
    match format with
    | .png => some (.pngComposite ⟨sanitizeUrl st.url, st.options, st.logo⟩ 2 "custqr-code.png")
    | .svg => some (.svgDoc (generateDownloadQRSvg st) "custqr-code.svg")
    | .pdf => some (.pdfComposite ⟨sanitizeUrl st.url, st.options, st.logo⟩ 2 "custqr-code.pdf")

end Enterprise

/-! ## Lemmas about the gamma correction and luminance -/

theorem srgbToLinear_zero : srgbToLinear 0 = 0 := by
  rw [srgbToLinear, if_pos (by norm_num)]
  norm_num

theorem srgbToLinear_one : srgbToLinear 1 = 1 := by
  rw [srgbToLinear, if_neg (by norm_num)]
  have h : ((1 : ℝ) + 0.055) / 1.055 = 1 := by norm_num
  rw [h, Real.one_rpow]

theorem srgbToLinear_nonneg (c : ℝ) (hc : 0 ≤ c) : 0 ≤ srgbToLinear c := by
  rw [srgbToLinear]
  split
  · exact div_nonneg hc (by norm_num)
  · exact Real.rpow_nonneg (div_nonneg (by linarith) (by norm_num)) _

theorem srgbToLinear_le_one (c : ℝ) (h0 : 0 ≤ c) (h1 : c ≤ 1) : srgbToLinear c ≤ 1 := by
  rw [srgbToLinear]
  split
  · rw [div_le_one (by norm_num)]; linarith
  · exact Real.rpow_le_one (div_nonneg (by linarith) (by norm_num))
      (by rw [div_le_one (by norm_num)]; linarith) (by norm_num)

theorem luminanceOfChannels_nonneg (r g b : ℕ) : 0 ≤ luminanceOfChannels r g b := by
  have hr := srgbToLinear_nonneg ((r : ℝ) / 255) (by positivity)
  have hg := srgbToLinear_nonneg ((g : ℝ) / 255) (by positivity)
  have hb := srgbToLinear_nonneg ((b : ℝ) / 255) (by positivity)
  rw [luminanceOfChannels]
  nlinarith

theorem calculateLuminance_nonneg (s : String) : 0 ≤ calculateLuminance s :=
  luminanceOfChannels_nonneg _ _ _

theorem luminanceOfChannels_zero : luminanceOfChannels 0 0 0 = 0 := by
  rw [luminanceOfChannels]
  norm_num [srgbToLinear_zero]

theorem luminanceOfChannels_max : luminanceOfChannels 255 255 255 = 1 := by
  rw [luminanceOfChannels]
  have h : ((255 : ℕ) : ℝ) / 255 = 1 := by norm_num
  rw [h, srgbToLinear_one]
  norm_num

theorem calculateLuminance_black : calculateLuminance "#000000" = 0 := by
  have h : hexChannels "#000000" = (0, 0, 0) := by decide
  rw [calculateLuminance, h]
  exact luminanceOfChannels_zero

theorem calculateLuminance_white : calculateLuminance "#FFFFFF" = 1 := by
  have h : hexChannels "#FFFFFF" = (255, 255, 255) := by decide
  rw [calculateLuminance, h]
  exact luminanceOfChannels_max

theorem contrastRatioOf_ge_one (darkColor lightColor : String) :
    1 ≤ contrastRatioOf darkColor lightColor := by
  have h1 := calculateLuminance_nonneg darkColor
  have h2 := calculateLuminance_nonneg lightColor
  have hmin : (0 : ℝ) ≤ min (calculateLuminance darkColor) (calculateLuminance lightColor) :=
    le_min h1 h2
  have hmm : min (calculateLuminance darkColor) (calculateLuminance lightColor) ≤
      max (calculateLuminance darkColor) (calculateLuminance lightColor) := min_le_max
  rw [contrastRatioOf, one_le_div (by linarith)]
  linarith

theorem contrastRatio_bw : contrastRatioOf "#000000" "#FFFFFF" = 21 := by
  rw [contrastRatioOf, calculateLuminance_black, calculateLuminance_white,
    max_eq_right (by norm_num : (0 : ℝ) ≤ 1), min_eq_left (by norm_num : (0 : ℝ) ≤ 1)]
  norm_num

/-- C5: `contrastRatio('#000000','#FFFFFF')` equals exactly 21 (the WCAG
maximum), and for this pair `scannable` is true (the ratio is ≥ 3). -/
theorem c5_black_white_contrast :
    (validateColorContrast "#000000" "#FFFFFF").contrastRatio = some 21 ∧
    (validateColorContrast "#000000" "#FFFFFF").scannable = some true := by
  have hcond : (validateHexColor "#000000" && validateHexColor "#FFFFFF") = true := by decide
  have h3 : (3 : ℝ) ≤ contrastRatioOf "#000000" "#FFFFFF" := by
    rw [contrastRatio_bw]; norm_num
  rw [validateColorContrast, if_pos hcond, if_pos h3]
  exact ⟨by rw [contrastRatio_bw], rfl⟩

/-- C6: for valid hex colors, the contrast ratio
`(max(L_A, L_B) + 0.05) / (min(L_A, L_B) + 0.05)` is symmetric in its two
arguments, and a color paired with itself has ratio exactly 1. -/
theorem c6_contrast_symm_refl (a b : String)
    (ha : validateHexColor a = true) (hb : validateHexColor b = true) :
    contrastRatioOf a b = contrastRatioOf b a ∧ contrastRatioOf a a = 1 := by
  constructor
  · rw [contrastRatioOf, contrastRatioOf, max_comm, min_comm]
  · have h := calculateLuminance_nonneg a
    rw [contrastRatioOf, max_self, min_self]
    exact div_self (by linarith)

theorem c6_witness :
    contrastRatioOf "#000000" "#FFFFFF" = contrastRatioOf "#FFFFFF" "#000000" ∧
    contrastRatioOf "#000000" "#000000" = 1 :=
  c6_contrast_symm_refl "#000000" "#FFFFFF" (by decide) (by decide)

/-- C10: for every pair of valid hex colors, `validateColorContrast` succeeds,
reports a contrast ratio that is always at least 1, and carries a warning
message exactly when `scannable` is false, which happens exactly when the
ratio is below 3. -/
theorem c10_contrast_invariants (darkColor lightColor : String)
    (hd : validateHexColor darkColor = true) (hl : validateHexColor lightColor = true) :
    (validateColorContrast darkColor lightColor).isValid = true ∧
    (validateColorContrast darkColor lightColor).contrastRatio =
      some (contrastRatioOf darkColor lightColor) ∧
    1 ≤ contrastRatioOf darkColor lightColor ∧
    ((validateColorContrast darkColor lightColor).warning ≠ none ↔
      (validateColorContrast darkColor lightColor).scannable = some false) ∧
    ((validateColorContrast darkColor lightColor).scannable = some false ↔
      contrastRatioOf darkColor lightColor < 3) := by
  have hcond : (validateHexColor darkColor && validateHexColor lightColor) = true := by
    rw [hd, hl]; rfl
  by_cases h3 : (3 : ℝ) ≤ contrastRatioOf darkColor lightColor
  · rw [validateColorContrast, if_pos hcond, if_pos h3]
    refine ⟨rfl, rfl, contrastRatioOf_ge_one _ _, ?_, ?_⟩
    · simp
    · simp [not_lt.mpr h3]
  · rw [validateColorContrast, if_pos hcond, if_neg h3]
    refine ⟨rfl, rfl, contrastRatioOf_ge_one _ _, ?_, ?_⟩
    · simp
    · simp [not_le.mp h3]

theorem c10_witness :
    (validateColorContrast "#000000" "#FFFFFF").isValid = true ∧
    1 ≤ contrastRatioOf "#000000" "#FFFFFF" :=
  ⟨(c10_contrast_invariants "#000000" "#FFFFFF" (by decide) (by decide)).1,
   (c10_contrast_invariants "#000000" "#FFFFFF" (by decide) (by decide)).2.2.1⟩

/-! ## The hex decode of `calculateLuminance` (claim C1) -/

theorem hexDigitVal_lt (c : Char) : hexDigitVal c < 16 := by
  rw [hexDigitVal]
  split_ifs <;> omega

/-- For a 6-digit color, `parseInt` followed by shift-and-mask byte extraction
recovers exactly the three hex digit pairs. -/
theorem hexChannels_six (c1 c2 c3 c4 c5 c6 : Char) :
    hexChannels ⟨['#', c1, c2, c3, c4, c5, c6]⟩ =
      (16 * hexDigitVal c1 + hexDigitVal c2, 16 * hexDigitVal c3 + hexDigitVal c4,
        16 * hexDigitVal c5 + hexDigitVal c6) := by
  have b1 := hexDigitVal_lt c1
  have b2 := hexDigitVal_lt c2
  have b3 := hexDigitVal_lt c3
  have b4 := hexDigitVal_lt c4
  have b5 := hexDigitVal_lt c5
  have b6 := hexDigitVal_lt c6
  simp only [hexChannels, hexToNat, List.foldl, List.drop, Prod.mk.injEq]
  refine ⟨?_, ?_, ?_⟩ <;> omega

/-- C1 (amended): for every 6-digit color accepted by `validateHexColor`,
`calculateLuminance` decodes the channels as WCAG does and agrees exactly with
the WCAG relative-luminance definition. (The original claim also covered
3-digit colors; `c1_counterexample` shows those are decoded differently.) -/
theorem c1_luminance_wcag_six_digit (s : String)
    (hv : validateHexColor s = true) (h7 : s.length = 7) :
    calculateLuminance s = wcagRelativeLuminance s := by
  obtain ⟨l⟩ := s
  have hl : l.length = 7 := h7
  have hp : hexPatternTest ⟨l⟩ = true := by
    rw [validateHexColor, hexErrorMsg] at hv
    split_ifs at hv with hemp hpat
    · simp at hv
    · exact hpat
    · simp at hv
  rcases l with _ | ⟨c0, _ | ⟨c1, _ | ⟨c2, _ | ⟨c3, _ | ⟨c4, _ | ⟨c5, _ | ⟨c6, rest⟩⟩⟩⟩⟩⟩⟩ <;>
    simp only [List.length_cons, List.length_nil] at hl <;> try omega
  have hrest : rest = [] := by
    cases rest with
    | nil => rfl
    | cons a t =>
        exfalso
        simp only [List.length_cons] at hl
        omega
  subst hrest
  have hhash : c0 = '#' := by
    rw [hexPatternTest] at hp
    simp only [Bool.and_eq_true, beq_iff_eq] at hp
    exact hp.1.1
  subst hhash
  rw [calculateLuminance, wcagRelativeLuminance, hexChannels_six]
  rfl

theorem c1_witness :
    validateHexColor "#1e293b" = true ∧ ("#1e293b" : String).length = 7 ∧
    calculateLuminance "#1e293b" = wcagRelativeLuminance "#1e293b" :=
  ⟨by decide, by decide, c1_luminance_wcag_six_digit "#1e293b" (by decide) (by decide)⟩

/-- C1 counterexample: `"#fff"` is accepted by `validateHexColor`, but
`calculateLuminance` parses the three digits as the number `0xfff` and
extracts bytes `(0, 15, 255)` instead of the WCAG channels `(255, 255, 255)`,
so its result differs from the WCAG relative luminance. -/
theorem c1_counterexample :
    validateHexColor "#fff" = true ∧
    calculateLuminance "#fff" ≠ wcagRelativeLuminance "#fff" := by
  refine ⟨by decide, ?_⟩
  have h1 : hexChannels "#fff" = (0, 15, 255) := by decide
  have h2 : wcagChannels "#fff" = (255, 255, 255) := by decide
  have hw : wcagRelativeLuminance "#fff" = 1 := by
    rw [wcagRelativeLuminance, h2]
    exact luminanceOfChannels_max
  have hc : calculateLuminance "#fff" < 1 := by
    rw [calculateLuminance, h1, luminanceOfChannels]
    have e0 : ((0 : ℕ) : ℝ) / 255 = 0 := by norm_num
    have e2 : ((255 : ℕ) : ℝ) / 255 = 1 := by norm_num
    rw [e0, e2, srgbToLinear_zero, srgbToLinear_one]
    have hy : srgbToLinear (((15 : ℕ) : ℝ) / 255) ≤ 1 :=
      srgbToLinear_le_one _ (by positivity) (by norm_num)
    nlinarith
  rw [hw]
  exact ne_of_lt hc

/-! ## Lemmas about trimming and URL sanitization (claim C7) -/

theorem dropWhile_idem {α : Type} (p : α → Bool) :
    (l : List α) → (l.dropWhile p).dropWhile p = l.dropWhile p
  | [] => rfl
  | a :: l => by
    cases h : p a with
    | true => simpa [List.dropWhile_cons, h] using dropWhile_idem p l
    | false => simp [List.dropWhile_cons, h]

theorem dropWhile_length_le {α : Type} (p : α → Bool) :
    (l : List α) → (l.dropWhile p).length ≤ l.length
  | [] => Nat.le_refl _
  | a :: l => by
    cases h : p a with
    | true =>
      rw [List.dropWhile_cons, h, if_pos rfl]
      exact Nat.le_trans (dropWhile_length_le p l) (Nat.le_succ _)
    | false => rw [List.dropWhile_cons, h, if_neg (by simp)]

theorem head_not_of_dropWhile_fix {α : Type} (p : α → Bool) (a : α) (t : List α)
    (h : (a :: t).dropWhile p = a :: t) : p a = false := by
  cases hpa : p a with
  | false => rfl
  | true =>
    rw [List.dropWhile_cons, hpa, if_pos rfl] at h
    have hle := dropWhile_length_le p t
    rw [h] at hle
    simp at hle

theorem dropWhile_append_fix {α : Type} (p : α → Bool) (x y : List α)
    (hx : x.dropWhile p = x) (hy : y.dropWhile p = y) :
    (x ++ y).dropWhile p = x ++ y := by
  cases x with
  | nil => simpa using hy
  | cons a t =>
    have hpa : p a = false := head_not_of_dropWhile_fix p a t hx
    simp [List.dropWhile_cons, hpa]

theorem trimList_decomp (l : List Char) :
    trimList l ++ ((l.dropWhile isWSb).reverse.takeWhile isWSb).reverse =
      l.dropWhile isWSb := by
  show ((l.dropWhile isWSb).reverse.dropWhile isWSb).reverse ++
      ((l.dropWhile isWSb).reverse.takeWhile isWSb).reverse = l.dropWhile isWSb
  rw [← List.reverse_append, List.takeWhile_append_dropWhile, List.reverse_reverse]

theorem trimList_dropWhile (l : List Char) :
    (trimList l).dropWhile isWSb = trimList l := by
  cases hm : trimList l with
  | nil => rfl
  | cons a t =>
    have hA : (l.dropWhile isWSb).dropWhile isWSb = l.dropWhile isWSb := dropWhile_idem _ _
    have hdec := trimList_decomp l
    rw [hm] at hdec
    rw [← hdec] at hA
    have hpa : isWSb a = false := by
      rw [List.cons_append] at hA
      exact head_not_of_dropWhile_fix _ _ _ hA
    simp [List.dropWhile_cons, hpa]

theorem trimList_reverse_dropWhile (l : List Char) :
    (trimList l).reverse.dropWhile isWSb = (trimList l).reverse := by
  have h : (trimList l).reverse = (l.dropWhile isWSb).reverse.dropWhile isWSb := by
    rw [trimList, dropTrailWS, List.reverse_reverse]
  rw [h, dropWhile_idem]

theorem dropTrailWS_trimList (l : List Char) : dropTrailWS (trimList l) = trimList l := by
  rw [dropTrailWS, trimList_reverse_dropWhile, List.reverse_reverse]

theorem trimList_idem (l : List Char) : trimList (trimList l) = trimList l := by
  show dropTrailWS ((trimList l).dropWhile isWSb) = trimList l
  rw [trimList_dropWhile, dropTrailWS_trimList]

theorem trimList_https_append (l : List Char) :
    trimList ("https://".data ++ trimList l) = "https://".data ++ trimList l := by
  have h1 : ("https://".data ++ trimList l).dropWhile isWSb =
      "https://".data ++ trimList l :=
    dropWhile_append_fix _ _ _ (by decide) (trimList_dropWhile l)
  show dropTrailWS (("https://".data ++ trimList l).dropWhile isWSb) = _
  rw [h1, dropTrailWS, List.reverse_append,
    dropWhile_append_fix _ _ _ (trimList_reverse_dropWhile l) (by decide),
    ← List.reverse_append, List.reverse_reverse]

theorem startsW_append (x y : List Char) : startsW x (x ++ y) = true := by
  induction x with
  | nil => rfl
  | cons a t ih => simp [startsW, ih]

theorem sanitizeList_idem (l : List Char) :
    sanitizeList (sanitizeList l) = sanitizeList l := by
  by_cases h : (startsW "http://".data (trimList l) ||
      startsW "https://".data (trimList l)) = true
  · have hs : sanitizeList l = trimList l := by rw [sanitizeList, if_pos h]
    rw [hs, sanitizeList, trimList_idem, if_pos h]
  · have hs : sanitizeList l = "https://".data ++ trimList l := by
      rw [sanitizeList, if_neg h]
    rw [hs, sanitizeList, trimList_https_append, if_pos (by rw [startsW_append]; simp)]

/-- C7: `sanitizeUrl` is idempotent on every input string, and prefixes
`https://` to a bare host, so `sanitizeUrl "example.com"` yields
`"https://example.com"`. -/
theorem c7_sanitizeUrl_idempotent :
    (∀ s : String, sanitizeUrl (sanitizeUrl s) = sanitizeUrl s) ∧
    sanitizeUrl "example.com" = "https://example.com" := by
  constructor
  · intro s
    show (⟨sanitizeList (String.data ⟨sanitizeList s.data⟩)⟩ : String) = ⟨sanitizeList s.data⟩
    rw [show String.data ⟨sanitizeList s.data⟩ = sanitizeList s.data from rfl,
      sanitizeList_idem]
  · decide

/-! ## validateNumericInput (claim C8) -/

theorem trimStr_empty_all_ws (s : String) (h : trimStr s = "") :
    s.data.dropWhile isWSb = [] := by
  have hl : trimList s.data = [] := congrArg String.data h
  rw [trimList, dropTrailWS] at hl
  have h2 : (s.data.dropWhile isWSb).reverse.dropWhile isWSb = [] := by
    have h3 := congrArg List.reverse hl
    simpa using h3
  cases hA : s.data.dropWhile isWSb with
  | nil => rfl
  | cons a t =>
    have hfix : (a :: t).dropWhile isWSb = a :: t := by
      rw [← hA]
      exact dropWhile_idem _ _
    have hpa : isWSb a = false := head_not_of_dropWhile_fix _ _ _ hfix
    rw [hA, List.dropWhile_eq_nil_iff] at h2
    have hmem : isWSb a = true := h2 a (by simp)
    rw [hpa] at hmem
    exact Bool.noConfusion hmem

theorem parseIntTen_none_of_trim_empty (s : String) (h : trimStr s = "") :
    parseIntTen s = none := by
  rw [parseIntTen, trimStr_empty_all_ws s h]
  rfl

/-- C8: `validateNumericInput` accepts empty/whitespace-only input with the
default value, rejects non-numeric input with the default value, and rejects
out-of-range numeric input with the value clamped to `[min, max]`; in
particular the two concrete examples from the spec hold. -/
theorem c8_validateNumericInput (s : String) (mn mx dv : ℤ) :
    (trimStr s = "" → validateNumericInput s mn mx dv = ⟨true, none, dv⟩) ∧
    (trimStr s ≠ "" → parseIntTen s = none →
      (validateNumericInput s mn mx dv).isValid = false ∧
      (validateNumericInput s mn mx dv).parsedValue = dv) ∧
    (∀ n : ℤ, parseIntTen s = some n → (n < mn ∨ mx < n) →
      (validateNumericInput s mn mx dv).isValid = false ∧
      (validateNumericInput s mn mx dv).parsedValue = max mn (min mx n) ∧
      (mn ≤ mx → mn ≤ (validateNumericInput s mn mx dv).parsedValue ∧
        (validateNumericInput s mn mx dv).parsedValue ≤ mx)) ∧
    validateNumericInput "" 0 10 2 = ⟨true, none, 2⟩ ∧
    (validateNumericInput "15" 0 10 2).isValid = false ∧
    (validateNumericInput "15" 0 10 2).parsedValue = 10 := by
  refine ⟨?_, ?_, ?_, by decide, by decide, by decide⟩
  · intro h
    rw [validateNumericInput, if_pos h]
  · intro h1 h2
    rw [validateNumericInput, if_neg h1, h2]
    exact ⟨rfl, rfl⟩
  · intro n hn hout
    by_cases htrim : trimStr s = ""
    · exfalso
      rw [parseIntTen_none_of_trim_empty s htrim] at hn
      exact Option.noConfusion hn
    · have hval : validateNumericInput s mn mx dv =
          ⟨false, some ("Value must be between " ++ toString mn ++ " and " ++ toString mx),
            max mn (min mx n)⟩ := by
        simp only [validateNumericInput, if_neg htrim, hn, if_pos hout]
      rw [hval]
      exact ⟨rfl, rfl, fun hle => ⟨le_max_left _ _, max_le hle (min_le_left _ _)⟩⟩

theorem c8_witness :
    validateNumericInput "" 0 10 2 = ⟨true, none, 2⟩ ∧
    (validateNumericInput "15" 0 10 2).isValid = false ∧
    (validateNumericInput "15" 0 10 2).parsedValue = 10 :=
  ⟨(c8_validateNumericInput "" 0 10 2).1 (by decide),
   ((c8_validateNumericInput "15" 0 10 2).2.2.1 15 (by decide) (by decide)).1,
   ((c8_validateNumericInput "15" 0 10 2).2.2.1 15 (by decide) (by decide)).2.1⟩

/-! ## Rounding and the enterprise logo optimizer (claim C2) -/

theorem round_le_nat (x : ℚ) (n : ℕ) (hx : x ≤ n) : round x ≤ (n : ℤ) := by
  have h1 : round x ≤ round ((n : ℚ)) := by
    rw [round_eq, round_eq]
    exact Int.floor_mono (by linarith)
  rw [round_natCast] at h1
  exact h1

/-- The dimension logic of enterprise optimizeImage never exceeds the 512 px
square, never upscales, and leaves small images untouched. -/
theorem optimizeDims_spec (w h : ℕ) (hw : 0 < w) (hh : 0 < h) :
    (Enterprise.optimizeDims w h).1 ≤ 512 ∧ (Enterprise.optimizeDims w h).2 ≤ 512 ∧
    (Enterprise.optimizeDims w h).1 ≤ w ∧ (Enterprise.optimizeDims w h).2 ≤ h ∧
    (w ≤ 512 → h ≤ 512 → Enterprise.optimizeDims w h = (w, h)) := by
  rw [Enterprise.optimizeDims]
  by_cases hbig : w > 512 ∨ h > 512
  · rw [if_pos hbig]
    have hw0 : (0 : ℚ) < (w : ℚ) := by exact_mod_cast hw
    have hh0 : (0 : ℚ) < (h : ℚ) := by exact_mod_cast hh
    have hr1 : min (512 / (w : ℚ)) (512 / (h : ℚ)) ≤ 1 := by
      rcases hbig with hb | hb
      · refine le_trans (min_le_left _ _) ?_
        rw [div_le_one hw0]
        exact_mod_cast by omega
      · refine le_trans (min_le_right _ _) ?_
        rw [div_le_one hh0]
        exact_mod_cast by omega
    have hwle : (w : ℚ) * min (512 / (w : ℚ)) (512 / (h : ℚ)) ≤ 512 := by
      have hstep := mul_le_mul_of_nonneg_left
        (min_le_left (512 / (w : ℚ)) (512 / (h : ℚ))) hw0.le
      calc (w : ℚ) * min (512 / (w : ℚ)) (512 / (h : ℚ)) ≤ (w : ℚ) * (512 / (w : ℚ)) := hstep
        _ = 512 := by rw [mul_comm, div_mul_cancel₀ _ hw0.ne']
    have hhle : (h : ℚ) * min (512 / (w : ℚ)) (512 / (h : ℚ)) ≤ 512 := by
      have hstep := mul_le_mul_of_nonneg_left
        (min_le_right (512 / (w : ℚ)) (512 / (h : ℚ))) hh0.le
      calc (h : ℚ) * min (512 / (w : ℚ)) (512 / (h : ℚ)) ≤ (h : ℚ) * (512 / (h : ℚ)) := hstep
        _ = 512 := by rw [mul_comm, div_mul_cancel₀ _ hh0.ne']
    have hwself : (w : ℚ) * min (512 / (w : ℚ)) (512 / (h : ℚ)) ≤ (w : ℚ) := by
      have hstep := mul_le_mul_of_nonneg_left hr1 hw0.le
      simpa using hstep
    have hhself : (h : ℚ) * min (512 / (w : ℚ)) (512 / (h : ℚ)) ≤ (h : ℚ) := by
      have hstep := mul_le_mul_of_nonneg_left hr1 hh0.le
      simpa using hstep
    refine ⟨?_, ?_, ?_, ?_, ?_⟩
    · exact Int.toNat_le.mpr (round_le_nat _ 512 (by exact_mod_cast hwle))
    · exact Int.toNat_le.mpr (round_le_nat _ 512 (by exact_mod_cast hhle))
    · exact Int.toNat_le.mpr (round_le_nat _ w hwself)
    · exact Int.toNat_le.mpr (round_le_nat _ h hhself)
    · intro hw5 hh5
      omega
  · rw [if_neg hbig]
    push_neg at hbig
    exact ⟨hbig.1, hbig.2, le_refl _, le_refl _, fun _ _ => rfl⟩

/-- A 4096×4096 input is scaled by the ratio 1/8 to exactly 512×512. -/
theorem optimizeDims_4096 : Enterprise.optimizeDims 4096 4096 = (512, 512) := by
  rw [Enterprise.optimizeDims, if_pos (by norm_num)]
  have hm : ((4096 : ℕ) : ℚ) * min (512 / ((4096 : ℕ) : ℚ)) (512 / ((4096 : ℕ) : ℚ)) =
      ((512 : ℕ) : ℚ) := by
    push_cast
    norm_num
  rw [hm, round_natCast]
  rfl

/-- The enterprise upload handler accepts a 4096×4096 PNG of 1 MB and stores
the logo downscaled to 512×512. -/
theorem handleLogo_4096 :
    Enterprise.handleLogoUpload ⟨⟨"logo.png", "image/png", 1048576⟩, 4096, 4096⟩ =
      some (512, 512) := by
  rw [Enterprise.handleLogoUpload, if_neg (by decide), if_neg (by decide), if_neg (by decide),
    optimizeDims_4096]

/-- C2: every upload the enterprise logo processor accepts is downscaled
(never upscaled) to fit within a 512×512 square — images already inside the
square are kept as they are — and in particular a 4096×4096 PNG under the
byte-size cap is accepted and downscaled to exactly 512 px on its longer
side. -/
theorem c2_logo_downscaled_to_512 (img : ImageUpload) (res : ℕ × ℕ)
    (h : Enterprise.handleLogoUpload img = some res) :
    res.1 ≤ 512 ∧ res.2 ≤ 512 ∧ res.1 ≤ img.width ∧ res.2 ≤ img.height ∧
    (img.width ≤ 512 → img.height ≤ 512 → res = (img.width, img.height)) ∧
    Enterprise.handleLogoUpload ⟨⟨"logo.png", "image/png", 1048576⟩, 4096, 4096⟩ =
      some (512, 512) := by
  by_cases h1 : (Enterprise.validateFileUpload img.file).isValid = false
  · rw [Enterprise.handleLogoUpload, if_pos h1] at h
    exact Option.noConfusion h
  by_cases h2 : img.width < 32 ∨ img.height < 32
  · rw [Enterprise.handleLogoUpload, if_neg h1, if_pos h2] at h
    exact Option.noConfusion h
  by_cases h3 : img.width > 4096 ∨ img.height > 4096
  · rw [Enterprise.handleLogoUpload, if_neg h1, if_neg h2, if_pos h3] at h
    exact Option.noConfusion h
  · rw [Enterprise.handleLogoUpload, if_neg h1, if_neg h2, if_neg h3] at h
    have heq := Option.some.inj h
    subst heq
    push_neg at h2
    have hspec := optimizeDims_spec img.width img.height (by omega) (by omega)
    exact ⟨hspec.1, hspec.2.1, hspec.2.2.1, hspec.2.2.2.1, hspec.2.2.2.2, handleLogo_4096⟩

theorem c2_witness :
    (512 : ℕ) ≤ 512 ∧ (512 : ℕ) ≤ 512 ∧ (512 : ℕ) ≤ 4096 ∧ (512 : ℕ) ≤ 4096 ∧
    ((4096 : ℕ) ≤ 512 → (4096 : ℕ) ≤ 512 → ((512, 512) : ℕ × ℕ) = (4096, 4096)) ∧
    Enterprise.handleLogoUpload ⟨⟨"logo.png", "image/png", 1048576⟩, 4096, 4096⟩ =
      some (512, 512) :=
  c2_logo_downscaled_to_512 ⟨⟨"logo.png", "image/png", 1048576⟩, 4096, 4096⟩ (512, 512)
    handleLogo_4096

/-! ## Enterprise upload validation and extensions (claim C3) -/

/-- C3: any file whose (lowercased, last-dot) extension is not on the allowed
image extension list — in particular any file with extension .exe — fails the
enterprise validateFileUpload, whatever its declared MIME type and size. -/
theorem c3_exe_rejected_any_mime (name mime : String) (sz : ℕ)
    (h : Enterprise.allowedExtensions.contains (Enterprise.fileExtensionOf name) = false ∨
      Enterprise.fileExtensionOf name = ".exe") :
    (Enterprise.validateFileUpload ⟨name, mime, sz⟩).isValid = false := by
  have hext : Enterprise.allowedExtensions.contains (Enterprise.fileExtensionOf name) =
      false := by
    rcases h with h | h
    · exact h
    · rw [h]
      decide
  rw [Enterprise.validateFileUpload]
  split_ifs with h1 h2 h3 h4 h5 h6 <;> simp_all

theorem c3_witness :
    (Enterprise.validateFileUpload ⟨"malware.exe", "image/png", 1024⟩).isValid = false :=
  c3_exe_rejected_any_mime "malware.exe" "image/png" 1024 (Or.inr (by decide))

/-! ## Enterprise SVG export (claim C4) -/

/-- C4: whenever a logo is present and a QR is displayed, the enterprise SVG
export does not emit the encoder's native vector output: it produces the
raster composite of QR and logo via the export compositing canvas, embeds its
PNG data URL as a raster image, and wraps it in a minimal SVG document whose
declared width, height and viewBox side all equal the QR pixel size
`options.width`. -/
theorem c4_svg_logo_raster_wrapped (st : AppState) (l : String)
    (hl : st.logo = some l) (hq : st.qrDataUrl ≠ "") :
    Enterprise.downloadQR .svg st =
      some (.svgDoc (.rasterWrapped ⟨sanitizeUrl st.url, st.options, some l⟩
        st.options.width) "custqr-code.svg") ∧
    (Enterprise.generateDownloadQRSvg st).isNativeVector = false := by
  have hg : Enterprise.generateDownloadQRSvg st =
      .rasterWrapped ⟨sanitizeUrl st.url, st.options, some l⟩ st.options.width := by
    rw [Enterprise.generateDownloadQRSvg, hl]
  constructor
  · rw [Enterprise.downloadQR, if_neg hq, hg]
  · rw [hg]
    rfl

theorem c4_witness :
    Enterprise.downloadQR .svg ⟨"example.com", "qr-data", some "logo-data",
        ⟨.M, 256, 2, "#1e293b", "#ffffff"⟩⟩ =
      some (.svgDoc (.rasterWrapped ⟨sanitizeUrl "example.com",
        ⟨.M, 256, 2, "#1e293b", "#ffffff"⟩, some "logo-data"⟩ 256) "custqr-code.svg") :=
  (c4_svg_logo_raster_wrapped ⟨"example.com", "qr-data", some "logo-data",
    ⟨.M, 256, 2, "#1e293b", "#ffffff"⟩⟩ "logo-data" rfl (by decide)).1


/-! ## Debounced regeneration (claim C9) -/

/-- C9: three width changes falling inside one 300 ms window produce exactly
one regeneration, carrying the final width: each rescheduling cancels the
pending, not-yet-fired timer of the structural trigger class. -/
theorem c9_debounce_single_fire (t1 t2 t3 w1 w2 w3 : ℕ)
    (h12 : t1 ≤ t2) (h23 : t2 ≤ t3) (hwin : t3 < t1 + 300) :
    debounceRun 300 [(t1, w1), (t2, w2), (t3, w3)] none = [w3] := by
  have h1 : ¬(t1 + 300 ≤ t2) := by omega
  have h2 : ¬(t2 + 300 ≤ t3) := by omega
  simp [debounceRun, h1, h2]

theorem c9_witness : debounceRun 300 [(0, 111), (10, 222), (20, 333)] none = [333] :=
  c9_debounce_single_fire 0 10 20 111 222 333 (by decide) (by decide) (by decide)

end CustQR
